import Mathlib

/-!
# The coin ledger of bitcoin-wallet-api (`main/main.go`)

A shallow embedding of the handlers `getBtcToEurRate`, `showBalance` and
`createTransfer` together with the three database statements they issue.

Modelling decisions:

* The table `transactions` is a list of rows in insertion order.
* The amounts stored in the table, the bound `amount_eur` and the running totals
  are numbers, written as exact rationals: rounding, overflow and underflow of
  `float64` are not represented.
* The rate comes from `strconv.ParseFloat`, which can deliver a zero, an infinity
  or NaN, and the target `AmountEur / rate` inherits them.  These values are kept
  (`F64`), with the IEEE rules for division and for comparison: every comparison
  with NaN is false.
* `time.Time` is a natural number (a tick count); `created_at asc` is a stable
  sort on it.
* The HTTP call, the JSON decoding of its body, `strconv.ParseFloat`,
  `generateRandomHex`, `time.Now` and the success or failure of each database
  statement are inputs of a handler call, collected in `Env`.
-/

namespace BitcoinWallet

/-! ## float64 values -/

/-- A `float64` value that is a number, the negative zero, an infinity or NaN.  The number `0`
is the positive zero; a zero result of an operation is written `num 0` whatever its sign, since
the sign of a zero matters only for a zero used as divisor. -/
inductive F64 where
  | num (q : ℚ)
  | negZero
  | posInf
  | negInf
  | nan
deriving DecidableEq, Repr

namespace F64

/-- Quotient `a / r` of a number by a `float64` value. -/
def numDiv (a : ℚ) : F64 → F64
  | num r =>
    if r = 0 then (if a = 0 then nan else if 0 < a then posInf else negInf)
    else num (a / r)
  | negZero => if a = 0 then nan else if 0 < a then negInf else posInf
  | posInf => num 0
  | negInf => num 0
  | nan => nan

/-- Product `t * r` of a number and a `float64` value. -/
def numMul (t : ℚ) : F64 → F64
  | num r => num (t * r)
  | negZero => num 0
  | posInf => if t = 0 then nan else if 0 < t then posInf else negInf
  | negInf => if t = 0 then nan else if 0 < t then negInf else posInf
  | nan => nan

/-- Comparison `x < c` of a `float64` value with a number. -/
def ltNum (x : F64) (c : ℚ) : Bool :=
  match x with
  | num q => decide (q < c)
  | negZero => decide (0 < c)
  | posInf => false
  | negInf => true
  | nan => false

/-- Comparison `t >= x` of a number with a `float64` value. -/
def numGe (t : ℚ) : F64 → Bool
  | num q => decide (q ≤ t)
  | negZero => decide (0 ≤ t)
  | posInf => false
  | negInf => true
  | nan => false

/-- Comparison `t < x` of a number with a `float64` value. -/
def numLt (t : ℚ) : F64 → Bool
  | num q => decide (t < q)
  | negZero => decide (t < 0)
  | posInf => true
  | negInf => false
  | nan => false

/-- Comparison `t > x` of a number with a `float64` value. -/
def numGt (t : ℚ) : F64 → Bool
  | num q => decide (q < t)
  | negZero => decide (0 < t)
  | posInf => false
  | negInf => true
  | nan => false

/-- Difference `t - x`, which `createTransfer` computes only under `t > x`, that is for a number,
a zero or minus infinity.  Minus infinity fails the threshold check before, so the difference is
needed for numbers only; for an infinity or NaN, where it is not a number, it is set to `0`. -/
def numSub (t : ℚ) : F64 → ℚ
  | num q => t - q
  | negZero => t
  | posInf => 0
  | negInf => 0
  | nan => 0

end F64

/-! ## Data model -/

/-- Transaction represents a transaction record (a row of the table). -/
structure Transaction where
  ID : String
  Amount : ℚ
  Spent : Bool
  CreatedAt : Nat
deriving DecidableEq, Repr

/-- The database: the rows of table `transactions`, in insertion order. -/
abbrev Store := List Transaction

/-- One element of the `data` array of the ticker response. -/
structure TickerItem where
  Symbol : String
  Value : String
deriving DecidableEq, Repr

/-- Everything a handler call obtains from outside the process. -/
structure Env where
  /-- Result of the HTTP GET and of decoding its JSON body: the `data` array, or the error. -/
  ticker : Except String (List TickerItem)
  /-- The library function `strconv.ParseFloat(_, 64)`; `none` is a parse error. -/
  parseFloat : String → Option F64
  /-- The value `generateRandomHex()` returns during this call. -/
  newId : String
  /-- The value `time.Now()` returns during this call. -/
  now : Nat
  /-- The `Find` query of this call returns an error. -/
  findFails : Bool
  /-- The `Update` statement of this call returns an error. -/
  updateFails : Bool
  /-- The `Create` statement of this call returns an error for a reason other than a duplicate key. -/
  createFails : Bool

/-- The values the handlers hand to `c.JSON`. -/
inductive Response where
  /-- Answer `c.JSON(status, gin.H("error": msg))`. -/
  | error (status : Nat) (msg : String)
  /-- Answer `200` with message "Transfer successful". -/
  | transferSuccessful
  /-- Answer `200` with `balance_btc` and `balance_eur`. -/
  | balance (balance_btc : ℚ) (balance_eur : F64)
deriving DecidableEq, Repr

/-! ## Database statements -/

/-- Ordering used by `Order("created_at asc")`. -/
def createdAtLe (a b : Transaction) : Prop := a.CreatedAt ≤ b.CreatedAt

instance : DecidableRel createdAtLe := fun a b => Nat.decLe a.CreatedAt b.CreatedAt

instance : IsTotal Transaction createdAtLe := ⟨fun a b => Nat.le_total a.CreatedAt b.CreatedAt⟩

instance : IsTrans Transaction createdAtLe :=
  ⟨fun _ _ _ hab hbc => Nat.le_trans hab hbc⟩

/-- Query `db.Where("spent = ?", false).Find(&transactions)`.  A failed query leaves the slice
empty. -/
def findUnspent (fails : Bool) (db : Store) : List Transaction :=
  if fails then [] else db.filter (fun t => !t.Spent)

/-- Query `db.Where("spent = ?", false).Order("created_at asc").Find(&transactions)`. -/
def findUnspentOrdered (fails : Bool) (db : Store) : List Transaction :=
  if fails then [] else (db.filter (fun t => !t.Spent)).insertionSort createdAtLe

/-- Statement `db.Model(&Transaction).Where("id IN ?", ids).Update("spent", true)`: every row
whose id is listed gets `spent = true`, whatever its flag was.  A failed statement changes
nothing. -/
def updateSpent (fails : Bool) (ids : List String) (db : Store) : Store :=
  if fails then db else db.map (fun t => if t.ID ∈ ids then { t with Spent := true } else t)

/-- Statement `db.Create(&newTransaction)`: `ID` is the primary key, so a row with an id already
in the table is refused; a refused or failed insert changes nothing. -/
def create (fails : Bool) (t : Transaction) (db : Store) : Store :=
  if fails ∨ t.ID ∈ db.map Transaction.ID then db else db ++ [t]

/-! ## getBtcToEurRate -/

/-- The loop `for _, item := range response.Data` of `getBtcToEurRate`. -/
def findRate (parseFloat : String → Option F64) : List TickerItem → Except String F64
  | [] => .error "BTC/EUR rate not found"
  | item :: rest =>
    if item.Symbol = "BTC/EUR" then
      match parseFloat item.Value with
      | some rate => .ok rate
      | none => .error "failed to convert BTC/EUR rate to float"
    else findRate parseFloat rest

/-- Function getBtcToEurRate retrieves the BTC to EUR exchange rate. -/
def getBtcToEurRate (env : Env) : Except String F64 :=
  match env.ticker with
  | .error err => .error err
  | .ok data => findRate env.parseFloat data

/-! ## showBalance -/

/-- Handler showBalance: the answer and the database afterwards. -/
def showBalance (env : Env) (db : Store) : Response × Store :=
  let transactions := findUnspent env.findFails db
  let totalBtc := transactions.foldl (fun acc t => acc + t.Amount) 0
  match getBtcToEurRate env with
  | .error _ => (.error 500 "Failed to fetch BTC to EUR rate", db)
  | .ok rate => (.balance totalBtc (F64.numMul totalBtc rate), db)

/-! ## createTransfer -/

/-- The literal `0.00001` of the minimum-amount check. -/
def minAmount : ℚ := 1 / 100000

/-- The selection loop of `createTransfer` (lines 150-160), started with the current values of
`totalBtc` and `spentTransactions`; it returns their final values. -/
def selectLoop (amountBtc : F64) : List Transaction → ℚ → List String → ℚ × List String
  | [], totalBtc, spentTransactions => (totalBtc, spentTransactions)
  | t :: rest, totalBtc, spentTransactions =>
    let totalBtc := totalBtc + t.Amount
    let spentTransactions := spentTransactions ++ [t.ID]
    if F64.numGe totalBtc amountBtc then (totalBtc, spentTransactions)
    else selectLoop amountBtc rest totalBtc spentTransactions

/-- The local variables of `createTransfer` that are live after the balance check. -/
structure Pending where
  amountBtc : F64
  totalBtc : ℚ
  spentTransactions : List String
deriving DecidableEq, Repr

/-- Lines 125-165 of `createTransfer`: request binding, rate, threshold check, the read of the
unspent coins, the selection loop and the balance check.  Nothing is written.  The result is the
early answer, or the local state with which the handler goes on.  The `request` is the bound
`amount_eur`, or `none` when `BindJSON` fails. -/
def createTransferSelect (env : Env) (request : Option ℚ) (db : Store) : Except Response Pending :=
  match request with
  | none => .error (.error 400 "Invalid request body")
  | some amountEur =>
    match getBtcToEurRate env with
    | .error _ => .error (.error 500 "Failed to fetch BTC to EUR rate")
    | .ok rate =>
      let amountBtc := F64.numDiv amountEur rate
      if amountBtc.ltNum minAmount then .error (.error 400 "Transfer amount too small")
      else
        let transactions := findUnspentOrdered env.findFails db
        let sel := selectLoop amountBtc transactions 0 []
        if F64.numLt sel.1 amountBtc then .error (.error 400 "Insufficient balance")
        else .ok ⟨amountBtc, sel.1, sel.2⟩

/-- Lines 167-180 of `createTransfer`: mark the chosen coins spent, insert the leftover, answer. -/
def createTransferCommit (env : Env) (p : Pending) (db : Store) : Response × Store :=
  let db1 := updateSpent env.updateFails p.spentTransactions db
  let db2 :=
    if F64.numGt p.totalBtc p.amountBtc then
      create env.createFails
        ⟨env.newId, F64.numSub p.totalBtc p.amountBtc, false, env.now⟩ db1
    else db1
  (.transferSuccessful, db2)

/-- Handler createTransfer: the answer and the database afterwards. -/
def createTransfer (env : Env) (request : Option ℚ) (db : Store) : Response × Store :=
  match createTransferSelect env request db with
  | .error resp => (resp, db)
  | .ok p => createTransferCommit env p db

/-- Two `createTransfer` calls that both run their read part (lines 125-165) on the same database
before either runs its write part (lines 167-180): a schedule of two request goroutines. -/
def createTransferInterleaved (env1 env2 : Env) (request1 request2 : Option ℚ) (db : Store) :
    Response × Response × Store :=
  let r1 := createTransferSelect env1 request1 db
  let r2 := createTransferSelect env2 request2 db
  let out1 : Response × Store :=
    match r1 with
    | .error resp => (resp, db)
    | .ok p => createTransferCommit env1 p db
  let out2 : Response × Store :=
    match r2 with
    | .error resp => (resp, out1.2)
    | .ok p => createTransferCommit env2 p out1.2
  (out1.1, out2.1, out2.2)

/-! ## Vocabulary of the specification -/

/-- Sum of the amounts of the rows whose `spent` flag is false. -/
def unspentBalance (db : Store) : ℚ :=
  ((db.filter (fun t => !t.Spent)).map Transaction.Amount).sum

/-- Sum of the amounts of the first `k` coins of a list. -/
def takeSum (k : Nat) (coins : List Transaction) : ℚ :=
  ((coins.take k).map Transaction.Amount).sum

/-- Sum of the amounts of the rows that are unspent in `db` and spent in `db'`, rows being
matched by position. -/
def turnedSpentSum (db db' : Store) : ℚ :=
  (((db.zip db').filter (fun pr => !pr.1.Spent && pr.2.Spent)).map
    (fun pr => pr.1.Amount)).sum

/-! ## Example data (the scenarios of the specification) -/

/-- A call in which the ticker lists BTC/EUR at rate 1 and every database statement works. -/
def rateOne : Env where
  ticker := .ok [⟨"BTC/USD", "7"⟩, ⟨"BTC/EUR", "1"⟩]
  parseFloat := fun s =>
    if s = "1" then some (.num 1) else if s = "7" then some (.num 7)
    else if s = "0" then some (.num 0) else none
  newId := "c0"
  now := 10
  findFails := false
  updateFails := false
  createFails := false

/-- A call in which the rate provider cannot be reached. -/
def rateDown : Env := { rateOne with ticker := .error "connection refused" }

/-- A call in which the `Find` query fails. -/
def findDown : Env := { rateOne with findFails := true }

/-- A call in which the `Update` statement fails. -/
def updateDown : Env := { rateOne with updateFails := true }

/-- Scenario 1: unspent coins A (5) and B (3), oldest first. -/
def scenario1 : Store := [⟨"A", 5, false, 1⟩, ⟨"B", 3, false, 2⟩]

/-- Scenario 2: the single unspent coin A (5). -/
def scenario2 : Store := [⟨"A", 5, false, 1⟩]

/-- Scenario 2 after coin A has been marked spent. -/
def scenario2Spent : Store := [⟨"A", 5, true, 1⟩]

/-! ## float64 comparisons on numbers -/

theorem F64.ltNum_num (q c : ℚ) : (F64.num q).ltNum c = decide (q < c) := rfl

theorem F64.numGe_num (t q : ℚ) : F64.numGe t (.num q) = decide (q ≤ t) := rfl

theorem F64.numLt_num (t q : ℚ) : F64.numLt t (.num q) = decide (t < q) := rfl

theorem F64.numGt_num (t q : ℚ) : F64.numGt t (.num q) = decide (q < t) := rfl

theorem F64.numSub_num (t q : ℚ) : F64.numSub t (.num q) = t - q := rfl

theorem F64.numDiv_num (a r : ℚ) (hr : r ≠ 0) : F64.numDiv a (.num r) = .num (a / r) := by
  simp [F64.numDiv, hr]

/-! ## The selection loop -/

theorem takeSum_zero (coins : List Transaction) : takeSum 0 coins = 0 := by
  simp [takeSum]

theorem takeSum_nil (k : Nat) : takeSum k [] = 0 := by
  simp [takeSum]

theorem takeSum_succ_cons (k : Nat) (t : Transaction) (rest : List Transaction) :
    takeSum (k + 1) (t :: rest) = t.Amount + takeSum k rest := by
  simp [takeSum]

theorem takeSum_length (coins : List Transaction) :
    takeSum coins.length coins = (coins.map Transaction.Amount).sum := by
  simp [takeSum]

/-- The loop consumes the first `k` coins: `k` is at least one on a non-empty list, after every
shorter non-empty run the test `totalBtc >= amountBtc` is false, and the loop stops early only
when the test is true. -/
theorem selectLoop_spec (amountBtc : F64) :
    ∀ (coins : List Transaction) (totalBtc : ℚ) (ids : List String),
      ∃ k, k ≤ coins.length ∧ (coins ≠ [] → 1 ≤ k) ∧
        selectLoop amountBtc coins totalBtc ids =
          (totalBtc + takeSum k coins, ids ++ (coins.take k).map Transaction.ID) ∧
        (∀ j, 1 ≤ j → j < k → F64.numGe (totalBtc + takeSum j coins) amountBtc = false) ∧
        (F64.numGe (totalBtc + takeSum k coins) amountBtc = false → k = coins.length) := by
  intro coins
  induction coins with
  | nil =>
    intro totalBtc ids
    exact ⟨0, le_refl _, fun h => absurd rfl h, by simp [selectLoop, takeSum], by
      intro j h1 h2; omega, fun _ => rfl⟩
  | cons t rest ih =>
    intro totalBtc ids
    by_cases hge : F64.numGe (totalBtc + t.Amount) amountBtc = true
    · refine ⟨1, by simp, fun _ => le_refl _, ?_, ?_, ?_⟩
      · simp [selectLoop, hge, takeSum]
      · intro j h1 h2; omega
      · intro hlt
        have : takeSum 1 (t :: rest) = t.Amount := by simp [takeSum]
        rw [this, hge] at hlt
        exact absurd hlt (by simp)
    · obtain ⟨k, hk, _, hsel, hbelow, hstop⟩ := ih (totalBtc + t.Amount) (ids ++ [t.ID])
      refine ⟨k + 1, by simpa using hk, fun _ => Nat.le_add_left 1 k, ?_, ?_, ?_⟩
      · simp only [selectLoop, hge, if_false, hsel, takeSum_succ_cons]
        simp [add_assoc]
      · intro j h1 h2
        obtain ⟨i, rfl⟩ : ∃ i, j = i + 1 := ⟨j - 1, by omega⟩
        rw [takeSum_succ_cons, ← add_assoc]
        by_cases hi : i = 0
        · subst hi
          rw [takeSum_zero, add_zero]
          simpa using hge
        · exact hbelow i (by omega) (by omega)
      · intro hlt
        rw [takeSum_succ_cons, ← add_assoc] at hlt
        simp [hstop hlt]

/-! ## Database statements and the unspent balance -/

theorem map_ID_updateSpent (fails : Bool) (ids : List String) (db : Store) :
    (updateSpent fails ids db).map Transaction.ID = db.map Transaction.ID := by
  unfold updateSpent
  cases fails
  · simp only [Bool.false_eq_true, if_false, List.map_map]
    apply List.map_congr_left
    intro t _
    by_cases h : t.ID ∈ ids <;> simp [h]
  · simp

theorem length_updateSpent (fails : Bool) (ids : List String) (db : Store) :
    (updateSpent fails ids db).length = db.length := by
  unfold updateSpent
  cases fails <;> simp

theorem findUnspentOrdered_perm (db : Store) :
    (findUnspentOrdered false db).Perm (db.filter (fun t => !t.Spent)) := by
  simp [findUnspentOrdered, List.perm_insertionSort]

theorem findUnspentOrdered_subperm (fails : Bool) (db : Store) :
    (findUnspentOrdered fails db).Subperm (db.filter (fun t => !t.Spent)) := by
  cases fails
  · exact (findUnspentOrdered_perm db).subperm
  · simp [findUnspentOrdered]

theorem mem_findUnspentOrdered (fails : Bool) (db : Store) (t : Transaction)
    (h : t ∈ findUnspentOrdered fails db) : t ∈ db ∧ t.Spent = false := by
  have h1 := (findUnspentOrdered_subperm fails db).subset h
  simpa using h1

theorem nodup_findUnspentOrdered (fails : Bool) (db : Store)
    (hnodup : (db.map Transaction.ID).Nodup) :
    ((findUnspentOrdered fails db).map Transaction.ID).Nodup := by
  cases fails
  · have h1 : ((db.filter (fun t => !t.Spent)).map Transaction.ID).Nodup :=
      hnodup.sublist ((List.filter_sublist db).map _)
    exact ((findUnspentOrdered_perm db).map _).nodup_iff.mpr h1
  · simp [findUnspentOrdered]

/-- The first coin the ordered query returns is an unspent row that is at least as old as every
unspent row. -/
theorem head?_findUnspentOrdered (db : Store) (t : Transaction)
    (h : (findUnspentOrdered false db).head? = some t) :
    t ∈ db ∧ t.Spent = false ∧ ∀ u ∈ db, u.Spent = false → t.CreatedAt ≤ u.CreatedAt := by
  have hsorted : (findUnspentOrdered false db).Sorted createdAtLe := by
    simp only [findUnspentOrdered, Bool.false_eq_true, if_false]
    exact List.sorted_insertionSort createdAtLe _
  cases hL : findUnspentOrdered false db with
  | nil => rw [hL] at h; simp at h
  | cons a rest =>
    rw [hL] at h hsorted
    have hat : a = t := by simpa using h
    subst hat
    have hmem : a ∈ findUnspentOrdered false db := by rw [hL]; exact List.mem_cons_self _ _
    obtain ⟨hdb, hun⟩ := mem_findUnspentOrdered false db a hmem
    refine ⟨hdb, hun, ?_⟩
    intro u hu hus
    have hu2 : u ∈ findUnspentOrdered false db := by
      rw [(findUnspentOrdered_perm db).mem_iff]
      simp [hu, hus]
    rw [hL] at hu2
    rcases List.mem_cons.mp hu2 with hua | hur
    · rw [hua]
    · exact List.rel_of_sorted_cons hsorted u hur

theorem sum_findUnspentOrdered (db : Store) :
    ((findUnspentOrdered false db).map Transaction.Amount).sum = unspentBalance db :=
  ((findUnspentOrdered_perm db).map Transaction.Amount).sum_eq

theorem filter_mem_ids_append (a b : List Transaction)
    (hnodup : ((a ++ b).map Transaction.ID).Nodup) :
    (a ++ b).filter (fun t => decide (t.ID ∈ a.map Transaction.ID)) = a := by
  rw [List.map_append] at hnodup
  have hdisj := (List.nodup_append.mp hnodup).2.2
  have h1 : a.filter (fun t => decide (t.ID ∈ a.map Transaction.ID)) = a := by
    rw [List.filter_eq_self]
    intro t ht
    simpa using List.mem_map_of_mem Transaction.ID ht
  have h2 : b.filter (fun t => decide (t.ID ∈ a.map Transaction.ID)) = [] := by
    rw [List.filter_eq_nil_iff]
    intro t ht hmem
    have hmem2 : t.ID ∈ a.map Transaction.ID := by simpa using hmem
    exact hdisj hmem2 (List.mem_map_of_mem _ ht)
  rw [List.filter_append, h1, h2, List.append_nil]

/-- In a list with pairwise different ids, the rows whose id is among the ids of the first `k`
rows are the first `k` rows. -/
theorem filter_mem_take_ids (l : List Transaction) (k : Nat)
    (hnodup : (l.map Transaction.ID).Nodup) :
    l.filter (fun t => decide (t.ID ∈ (l.take k).map Transaction.ID)) = l.take k := by
  have h := filter_mem_ids_append (l.take k) (l.drop k) (by rw [List.take_append_drop]; exact hnodup)
  rwa [List.take_append_drop] at h

/-- With unique ids, the unspent rows whose id is among the ids of the first `k` coins that the
query returned are these `k` coins, up to order. -/
theorem unspent_chosen_perm (fails : Bool) (db : Store) (k : Nat)
    (hnodup : (db.map Transaction.ID).Nodup) :
    ((db.filter (fun t => !t.Spent)).filter (fun t => decide
      (t.ID ∈ ((findUnspentOrdered fails db).take k).map Transaction.ID))).Perm
        ((findUnspentOrdered fails db).take k) := by
  cases fails
  · have h1 := (findUnspentOrdered_perm db).filter (fun t => decide
      (t.ID ∈ ((findUnspentOrdered false db).take k).map Transaction.ID))
    rw [filter_mem_take_ids _ k (nodup_findUnspentOrdered false db hnodup)] at h1
    exact h1.symm
  · simp [findUnspentOrdered]

theorem sum_unspent_chosen (fails : Bool) (db : Store) (k : Nat)
    (hnodup : (db.map Transaction.ID).Nodup) :
    (((db.filter (fun t => !t.Spent)).filter (fun t => decide
      (t.ID ∈ ((findUnspentOrdered fails db).take k).map Transaction.ID))).map
        Transaction.Amount).sum = takeSum k (findUnspentOrdered fails db) :=
  ((unspent_chosen_perm fails db k hnodup).map Transaction.Amount).sum_eq

theorem takeSum_le_sum (k : Nat) (coins : List Transaction)
    (hnonneg : ∀ t ∈ coins, 0 ≤ t.Amount) :
    takeSum k coins ≤ (coins.map Transaction.Amount).sum := by
  have hsplit : (coins.map Transaction.Amount).sum =
      takeSum k coins + ((coins.drop k).map Transaction.Amount).sum := by
    unfold takeSum
    rw [← List.sum_append, ← List.map_append, List.take_append_drop]
  have hrest : 0 ≤ ((coins.drop k).map Transaction.Amount).sum := by
    apply List.sum_nonneg
    intro x hx
    obtain ⟨t, ht, rfl⟩ := List.mem_map.mp hx
    exact hnonneg t (List.mem_of_mem_drop ht)
  linarith

/-- With non-negative amounts and a number as target the loop ends below the target exactly when
the whole list sums to less than the target. -/
theorem selectLoop_insufficient_iff (x : ℚ) (coins : List Transaction)
    (hnonneg : ∀ t ∈ coins, 0 ≤ t.Amount) :
    (selectLoop (.num x) coins 0 []).1 < x ↔ (coins.map Transaction.Amount).sum < x := by
  obtain ⟨k, _, _, hsel, _, hstop⟩ := selectLoop_spec (.num x) coins 0 []
  simp only [zero_add, List.nil_append, F64.numGe_num, decide_eq_false_iff_not, not_le]
    at hsel hstop
  rw [hsel]
  constructor
  · intro hlt
    have hk := hstop hlt
    rw [hk, takeSum_length] at hlt
    exact hlt
  · intro hlt
    exact lt_of_le_of_lt (takeSum_le_sum k coins hnonneg) hlt

/-! ## The read part of createTransfer -/

theorem minAmount_pos : 0 < minAmount := by
  unfold minAmount; norm_num

/-- What is known when the read part of `createTransfer` passes every check: the request was
bound, the rate was obtained, neither the threshold test nor the balance test was true, and the
chosen coins are the first `k` coins the query returned. -/
theorem createTransferSelect_ok (env : Env) (request : Option ℚ) (db : Store) (p : Pending)
    (h : createTransferSelect env request db = .ok p) :
    ∃ amountEur rate, request = some amountEur ∧ getBtcToEurRate env = .ok rate ∧
      p.amountBtc = F64.numDiv amountEur rate ∧ p.amountBtc.ltNum minAmount = false ∧
      F64.numLt p.totalBtc p.amountBtc = false ∧
      ∃ k, k ≤ (findUnspentOrdered env.findFails db).length ∧
        p.spentTransactions =
          ((findUnspentOrdered env.findFails db).take k).map Transaction.ID ∧
        p.totalBtc = takeSum k (findUnspentOrdered env.findFails db) ∧
        (findUnspentOrdered env.findFails db ≠ [] → 1 ≤ k) ∧
        ∀ j, 1 ≤ j → j < k →
          F64.numGe (takeSum j (findUnspentOrdered env.findFails db)) p.amountBtc = false := by
  unfold createTransferSelect at h
  cases request with
  | none => simp at h
  | some amountEur =>
    simp only at h
    cases hrate : getBtcToEurRate env with
    | error e => rw [hrate] at h; simp at h
    | ok rate =>
      rw [hrate] at h
      simp only at h
      cases hsmall : (F64.numDiv amountEur rate).ltNum minAmount with
      | true => simp [hsmall] at h
      | false =>
        simp only [hsmall, Bool.false_eq_true, if_false] at h
        cases hins : F64.numLt (selectLoop (F64.numDiv amountEur rate)
            (findUnspentOrdered env.findFails db) 0 []).1 (F64.numDiv amountEur rate) with
        | true => simp [hins] at h
        | false =>
          simp only [hins, Bool.false_eq_true, if_false, Except.ok.injEq] at h
          subst h
          obtain ⟨k, hk, hk1, hsel, hbelow, _⟩ :=
            selectLoop_spec (F64.numDiv amountEur rate) (findUnspentOrdered env.findFails db) 0 []
          rw [hsel] at hins ⊢
          simp only [zero_add, List.nil_append] at hins hbelow ⊢
          exact ⟨amountEur, rate, rfl, rfl, rfl, hsmall, hins, k, hk, rfl, rfl, hk1, hbelow⟩

/-- When the target is a number, passing the checks means: the target is at least the threshold,
the read worked, and the chosen coins are the first `k ≥ 1` unspent coins (oldest first), the
shortest such run whose amounts reach the target. -/
theorem createTransferSelect_ok_num (env : Env) (request : Option ℚ) (db : Store) (p : Pending)
    (x : ℚ) (h : createTransferSelect env request db = .ok p) (hx : p.amountBtc = .num x) :
    minAmount ≤ x ∧ env.findFails = false ∧
      ∃ k, k ≤ (findUnspentOrdered false db).length ∧ 1 ≤ k ∧
        p.spentTransactions = ((findUnspentOrdered false db).take k).map Transaction.ID ∧
        p.totalBtc = takeSum k (findUnspentOrdered false db) ∧
        x ≤ p.totalBtc ∧
        ∀ j, j < k → takeSum j (findUnspentOrdered false db) < x := by
  obtain ⟨_, _, _, _, _, hmin, hins, k, hk, hids, htot, hk1, hbelow⟩ :=
    createTransferSelect_ok env request db p h
  rw [hx] at hmin hins hbelow
  simp only [F64.ltNum_num, F64.numLt_num, F64.numGe_num, decide_eq_false_iff_not, not_lt,
    not_le] at hmin hins hbelow
  have hpos : 0 < x := lt_of_lt_of_le minAmount_pos hmin
  have hne : findUnspentOrdered env.findFails db ≠ [] := by
    intro hnil
    rw [hnil, takeSum_nil] at htot
    rw [htot] at hins
    exact absurd hpos (not_lt.mpr hins)
  have hfind : env.findFails = false := by
    cases hf : env.findFails with
    | false => rfl
    | true =>
      rw [hf] at hne
      simp [findUnspentOrdered] at hne
  rw [hfind] at hk hids htot hk1 hbelow hne
  refine ⟨hmin, hfind, k, hk, hk1 hne, hids, htot, hins, ?_⟩
  intro j hj
  by_cases hj0 : j = 0
  · subst hj0; rw [takeSum_zero]; exact hpos
  · exact hbelow j (by omega) hj

/-- The read part of `createTransfer` once the rate is known, for a target that is a number at or
above the threshold. -/
theorem createTransferSelect_eq (env : Env) (amountEur x : ℚ) (rate : F64) (db : Store)
    (hrate : getBtcToEurRate env = .ok rate) (hx : F64.numDiv amountEur rate = .num x)
    (hmin : minAmount ≤ x) :
    createTransferSelect env (some amountEur) db =
      if (selectLoop (.num x) (findUnspentOrdered env.findFails db) 0 []).1 < x then
        .error (.error 400 "Insufficient balance")
      else
        .ok ⟨.num x,
          (selectLoop (.num x) (findUnspentOrdered env.findFails db) 0 []).1,
          (selectLoop (.num x) (findUnspentOrdered env.findFails db) 0 []).2⟩ := by
  simp only [createTransferSelect, hrate, hx, F64.ltNum_num, F64.numLt_num, not_lt.mpr hmin,
    decide_False, Bool.false_eq_true, if_false, decide_eq_true_eq]

theorem createTransferCommit_fst (env : Env) (p : Pending) (db : Store) :
    (createTransferCommit env p db).1 = .transferSuccessful := rfl

theorem createTransfer_of_ok (env : Env) (request : Option ℚ) (db : Store) (p : Pending)
    (h : createTransferSelect env request db = .ok p) :
    createTransfer env request db = createTransferCommit env p db := by
  simp [createTransfer, h]

theorem createTransfer_of_error (env : Env) (request : Option ℚ) (db : Store) (resp : Response)
    (h : createTransferSelect env request db = .error resp) :
    createTransfer env request db = (resp, db) := by
  simp [createTransfer, h]

/-! ## Row-by-row effect of the write part -/

theorem getElem?_updateSpent (fails : Bool) (ids : List String) (db : Store) (i : Nat)
    (t : Transaction) (h : db[i]? = some t) :
    ∃ t', (updateSpent fails ids db)[i]? = some t' ∧ t'.ID = t.ID ∧ t'.Amount = t.Amount ∧
      t'.CreatedAt = t.CreatedAt ∧ (t.Spent = true → t'.Spent = true) := by
  unfold updateSpent
  cases fails
  · simp only [Bool.false_eq_true, if_false, List.getElem?_map, h, Option.map_some']
    by_cases hm : t.ID ∈ ids
    · exact ⟨_, rfl, by simp [hm]⟩
    · exact ⟨_, rfl, by simp [hm]⟩
  · exact ⟨t, by simpa using h, rfl, rfl, rfl, id⟩

theorem getElem?_create (fails : Bool) (t : Transaction) (db : Store) (i : Nat)
    (u : Transaction) (h : db[i]? = some u) : (create fails t db)[i]? = some u := by
  unfold create
  split
  · exact h
  · have hi : i < db.length := by
      by_contra hge
      rw [List.getElem?_eq_none (not_lt.mp hge)] at h
      simp at h
    rw [List.getElem?_append_left hi]
    exact h

theorem getElem?_createTransferCommit (env : Env) (p : Pending) (db : Store) (i : Nat)
    (t : Transaction) (h : db[i]? = some t) :
    ∃ t', (createTransferCommit env p db).2[i]? = some t' ∧ t'.ID = t.ID ∧
      t'.Amount = t.Amount ∧ t'.CreatedAt = t.CreatedAt ∧ (t.Spent = true → t'.Spent = true) := by
  obtain ⟨t', ht', hrest⟩ := getElem?_updateSpent env.updateFails p.spentTransactions db i t h
  refine ⟨t', ?_, hrest⟩
  simp only [createTransferCommit]
  split
  · exact getElem?_create _ _ _ i t' ht'
  · exact ht'

/-- The rows that a working update turns from unspent to spent are the unspent rows whose id is
listed; rows appended behind the old ones do not count. -/
theorem turnedSpentSum_updateSpent (ids : List String) (db extra : Store) :
    turnedSpentSum db (updateSpent false ids db ++ extra) =
      (((db.filter (fun t => !t.Spent)).filter
        (fun t => decide (t.ID ∈ ids))).map Transaction.Amount).sum := by
  unfold turnedSpentSum updateSpent
  simp only [Bool.false_eq_true, if_false]
  induction db with
  | nil => simp
  | cons t rest ih =>
    simp only [List.map_cons, List.cons_append, List.zip_cons_cons]
    by_cases hs : t.Spent = true <;> by_cases hm : t.ID ∈ ids <;>
      simp [List.filter_cons, hs, hm, ih]

theorem head?_map_take (l : List Transaction) (k : Nat) (hk : 1 ≤ k) :
    ((l.take k).map Transaction.ID).head? = l.head?.map Transaction.ID := by
  cases l with
  | nil => simp
  | cons t rest =>
    cases k with
    | zero => omega
    | succ n => simp

/-! ## getBtcToEurRate and showBalance -/

theorem foldl_add_amount (l : List Transaction) (init : ℚ) :
    l.foldl (fun acc t => acc + t.Amount) init = init + (l.map Transaction.Amount).sum := by
  induction l generalizing init with
  | nil => simp
  | cons t rest ih => simp [ih, add_assoc]

theorem getBtcToEurRate_findFails (env : Env) (findFails : Bool) :
    getBtcToEurRate { env with findFails := findFails } = getBtcToEurRate env := rfl

/-! ## The example calls evaluated -/

theorem getBtcToEurRate_rateOne : getBtcToEurRate rateOne = .ok (.num 1) := by
  simp [getBtcToEurRate, rateOne, findRate]

theorem getBtcToEurRate_findDown : getBtcToEurRate findDown = .ok (.num 1) := by
  simp [getBtcToEurRate, findDown, rateOne, findRate]

theorem getBtcToEurRate_updateDown : getBtcToEurRate updateDown = .ok (.num 1) := by
  simp [getBtcToEurRate, updateDown, rateOne, findRate]

theorem getBtcToEurRate_rateDown : getBtcToEurRate rateDown = .error "connection refused" := by
  simp [getBtcToEurRate, rateDown]

theorem createTransferSelect_scenario1 :
    createTransferSelect rateOne (some 4) scenario1 = .ok ⟨.num 4, 5, ["A"]⟩ := by
  simp only [createTransferSelect, getBtcToEurRate_rateOne]
  norm_num [F64.numDiv, F64.ltNum, F64.numLt, F64.numGe, scenario1, minAmount,
    findUnspentOrdered, selectLoop, createdAtLe, rateOne]

theorem createTransferSelect_scenario2 :
    createTransferSelect rateOne (some 5) scenario2 = .ok ⟨.num 5, 5, ["A"]⟩ := by
  simp only [createTransferSelect, getBtcToEurRate_rateOne]
  norm_num [F64.numDiv, F64.ltNum, F64.numLt, F64.numGe, scenario2, minAmount,
    findUnspentOrdered, selectLoop, rateOne]

theorem createTransferSelect_updateDown :
    createTransferSelect updateDown (some 4) scenario1 = .ok ⟨.num 4, 5, ["A"]⟩ := by
  simp only [createTransferSelect, getBtcToEurRate_updateDown]
  norm_num [F64.numDiv, F64.ltNum, F64.numLt, F64.numGe, scenario1, minAmount,
    findUnspentOrdered, selectLoop, createdAtLe, updateDown, rateOne]

theorem createTransferSelect_updateDown_scenario2 :
    createTransferSelect updateDown (some 5) scenario2 = .ok ⟨.num 5, 5, ["A"]⟩ := by
  simp only [createTransferSelect, getBtcToEurRate_updateDown]
  norm_num [F64.numDiv, F64.ltNum, F64.numLt, F64.numGe, scenario2, minAmount,
    findUnspentOrdered, selectLoop, updateDown, rateOne]

/-- C1: on a list of unspent coins (oldest first) and a positive target, which is what the
threshold check leaves, the selection loop of `createTransfer` chooses the shortest run of first
coins whose amounts reach the target: the chosen ids are the ids of the first `k` coins, the
total is the sum of their amounts, every shorter run (in particular the first `k - 1` coins) sums
to less than the target, and when no run reaches the target every coin is chosen and the total is
the sum of the whole list. -/
theorem selectLoop_shortest_take (amountBtc : ℚ) (coins : List Transaction)
    (htarget : 0 < amountBtc) :
    ∃ k, k ≤ coins.length ∧
      (selectLoop (.num amountBtc) coins 0 []).2 = (coins.take k).map Transaction.ID ∧
      (selectLoop (.num amountBtc) coins 0 []).1 = takeSum k coins ∧
      (∀ j, j < k → takeSum j coins < amountBtc) ∧
      (amountBtc ≤ takeSum k coins ∨ k = coins.length) ∧
      ((∀ j, j ≤ coins.length → takeSum j coins < amountBtc) →
        (selectLoop (.num amountBtc) coins 0 []).2 = coins.map Transaction.ID ∧
        (selectLoop (.num amountBtc) coins 0 []).1 = (coins.map Transaction.Amount).sum) := by
  obtain ⟨k, hk, _, hsel, hbelow, hstop⟩ := selectLoop_spec (.num amountBtc) coins 0 []
  simp only [zero_add, List.nil_append, F64.numGe_num, decide_eq_false_iff_not, not_le]
    at hsel hbelow hstop
  refine ⟨k, hk, by rw [hsel], by rw [hsel], ?_, ?_, ?_⟩
  · intro j hj
    by_cases hj0 : j = 0
    · subst hj0; rw [takeSum_zero]; exact htarget
    · exact hbelow j (by omega) hj
  · by_cases hlt : takeSum k coins < amountBtc
    · exact Or.inr (hstop hlt)
    · exact Or.inl (not_lt.mp hlt)
  · intro hnone
    have hlen : k = coins.length := hstop (hnone k hk)
    rw [hsel, hlen]
    exact ⟨by simp, takeSum_length coins⟩

/-- Witness of C1 on scenario 1 with target 4. -/
theorem selectLoop_shortest_take_witness :
    (0 : ℚ) < 4 ∧
    ∃ k, k ≤ scenario1.length ∧
      (selectLoop (.num 4) scenario1 0 []).2 = (scenario1.take k).map Transaction.ID ∧
      (selectLoop (.num 4) scenario1 0 []).1 = takeSum k scenario1 ∧
      (∀ j, j < k → takeSum j scenario1 < 4) ∧
      ((4 : ℚ) ≤ takeSum k scenario1 ∨ k = scenario1.length) ∧
      ((∀ j, j ≤ scenario1.length → takeSum j scenario1 < 4) →
        (selectLoop (.num 4) scenario1 0 []).2 = scenario1.map Transaction.ID ∧
        (selectLoop (.num 4) scenario1 0 []).1 = (scenario1.map Transaction.Amount).sum) :=
  ⟨by norm_num, selectLoop_shortest_take 4 scenario1 (by norm_num)⟩

/-- C3, counterexample: scenario 2, target 5, the `Update` statement fails.  The transfer passes
the checks with coin A chosen (`T = X = 5`) and answers "Transfer successful", yet coin A is not
marked spent: the database is as before. -/
theorem createTransfer_success_coin_unspent :
    createTransferSelect updateDown (some 5) scenario2 = .ok ⟨.num 5, 5, ["A"]⟩ ∧
    createTransfer updateDown (some 5) scenario2 = (.transferSuccessful, scenario2) ∧
    (⟨"A", 5, false, 1⟩ : Transaction) ∈ (createTransfer updateDown (some 5) scenario2).2 := by
  have h : createTransfer updateDown (some 5) scenario2 = (.transferSuccessful, scenario2) := by
    simp only [createTransfer, createTransferSelect_updateDown_scenario2, createTransferCommit]
    norm_num [F64.numGt, scenario2, updateSpent, updateDown, rateOne]
  refine ⟨createTransferSelect_updateDown_scenario2, h, ?_⟩
  rw [h]
  simp [scenario2]

/-- C3, amended: take a database with unique ids and a call whose two writes are carried out: the
update works, the insert works and the new id is not yet in the table.  For every transfer that
passes the checks with total `T = p.totalBtc` for target `X = p.amountBtc`: the answer is
"Transfer successful"; every old row keeps its position, id, amount and creation time, and is
spent afterwards exactly when it was spent before or its id was chosen; the rows that went from
unspent to spent have amounts summing to `T`; if `X` is a number `x < T`, exactly one row is
added, it is unspent and its amount is `T - x`; if the test `T > X` is false, in particular if
`T = X`, no row is added.  And when the read works, the amounts are non-negative and the target
is a number at or above the threshold that equals the sum of all unspent coins, the transfer
succeeds and no row is added. -/
theorem createTransfer_spend_and_change (env : Env) (amountEur : ℚ) (rate : F64) (db : Store)
    (hrate : getBtcToEurRate env = .ok rate)
    (hnodup : (db.map Transaction.ID).Nodup) (hfresh : env.newId ∉ db.map Transaction.ID)
    (hupdate : env.updateFails = false) (hcreate : env.createFails = false) :
    (∀ p, createTransferSelect env (some amountEur) db = .ok p →
      (createTransfer env (some amountEur) db).1 = .transferSuccessful ∧
      (∀ (i : Nat) (t : Transaction), db[i]? = some t →
        ∃ t', (createTransfer env (some amountEur) db).2[i]? = some t' ∧ t'.ID = t.ID ∧
          t'.Amount = t.Amount ∧ t'.CreatedAt = t.CreatedAt ∧
          (t'.Spent = true ↔ t.Spent = true ∨ t.ID ∈ p.spentTransactions)) ∧
      turnedSpentSum db (createTransfer env (some amountEur) db).2 = p.totalBtc ∧
      (∀ x : ℚ, p.amountBtc = .num x → x < p.totalBtc →
        (createTransfer env (some amountEur) db).2.length = db.length + 1 ∧
        (createTransfer env (some amountEur) db).2[db.length]? =
          some ⟨env.newId, p.totalBtc - x, false, env.now⟩) ∧
      (F64.numGt p.totalBtc p.amountBtc = false →
        (createTransfer env (some amountEur) db).2.length = db.length) ∧
      (∀ x : ℚ, p.amountBtc = .num x → p.totalBtc = x →
        (createTransfer env (some amountEur) db).2.length = db.length)) ∧
    (∀ x : ℚ, F64.numDiv amountEur rate = .num x → minAmount ≤ x → x = unspentBalance db →
      env.findFails = false → (∀ t ∈ db, 0 ≤ t.Amount) →
      (createTransfer env (some amountEur) db).1 = .transferSuccessful ∧
      (createTransfer env (some amountEur) db).2.length = db.length) := by
  have hcommit : ∀ p : Pending, (createTransferCommit env p db).2 =
      updateSpent false p.spentTransactions db ++
        (if F64.numGt p.totalBtc p.amountBtc = true then
          [⟨env.newId, F64.numSub p.totalBtc p.amountBtc, false, env.now⟩]
        else []) := by
    intro p
    by_cases hgt : F64.numGt p.totalBtc p.amountBtc = true
    · simp [createTransferCommit, hupdate, hcreate, create, map_ID_updateSpent, hfresh, hgt]
    · simp [createTransferCommit, hupdate, hgt]
  constructor
  · intro p hsel
    obtain ⟨_, _, _, _, _, _, _, k, _, hids, htot, _, _⟩ :=
      createTransferSelect_ok env _ db p hsel
    rw [createTransfer_of_ok env _ db p hsel, hcommit p]
    refine ⟨rfl, ?_, ?_, ?_, ?_, ?_⟩
    · intro i t hi
      have hrow : ∃ t', (updateSpent false p.spentTransactions db)[i]? = some t' ∧
          t'.ID = t.ID ∧ t'.Amount = t.Amount ∧ t'.CreatedAt = t.CreatedAt ∧
          (t'.Spent = true ↔ t.Spent = true ∨ t.ID ∈ p.spentTransactions) := by
        simp only [updateSpent, Bool.false_eq_true, if_false, List.getElem?_map, hi,
          Option.map_some']
        by_cases hm : t.ID ∈ p.spentTransactions
        · exact ⟨_, rfl, by simp [hm]⟩
        · exact ⟨_, rfl, by simp [hm]⟩
      obtain ⟨t', ht', hrest⟩ := hrow
      refine ⟨t', ?_, hrest⟩
      have hlt : i < (updateSpent false p.spentTransactions db).length := by
        by_contra hge
        rw [List.getElem?_eq_none (not_lt.mp hge)] at ht'
        simp at ht'
      rw [List.getElem?_append_left hlt]
      exact ht'
    · rw [turnedSpentSum_updateSpent, hids, htot]
      exact sum_unspent_chosen env.findFails db k hnodup
    · intro x hx hlt
      have hgt : F64.numGt p.totalBtc p.amountBtc = true := by
        rw [hx, F64.numGt_num]; exact decide_eq_true hlt
      rw [if_pos hgt, hx, F64.numSub_num]
      refine ⟨by simp [length_updateSpent], ?_⟩
      rw [List.getElem?_append_right (by rw [length_updateSpent]), length_updateSpent]
      simp
    · intro hgt
      simp [hgt, length_updateSpent]
    · intro x hx heq
      have hgt : F64.numGt p.totalBtc p.amountBtc = false := by
        rw [hx, F64.numGt_num, heq]; simp
      simp [hgt, length_updateSpent]
  · intro x hx hmin hall hfind hnonneg
    have hnn : ∀ t ∈ findUnspentOrdered false db, 0 ≤ t.Amount :=
      fun t ht => hnonneg t (mem_findUnspentOrdered false db t ht).1
    have hnot : ¬ (selectLoop (.num x) (findUnspentOrdered false db) 0 []).1 < x := by
      rw [selectLoop_insufficient_iff _ _ hnn, sum_findUnspentOrdered, hall]
      exact lt_irrefl _
    have hsel := createTransferSelect_eq env amountEur x rate db hrate hx hmin
    rw [hfind, if_neg hnot] at hsel
    obtain ⟨k, _, _, hloop, _, _⟩ := selectLoop_spec (.num x) (findUnspentOrdered false db) 0 []
    simp only [zero_add, List.nil_append] at hloop
    have htot : (selectLoop (.num x) (findUnspentOrdered false db) 0 []).1 = x := by
      apply le_antisymm _ (not_lt.mp hnot)
      rw [hloop, hall, ← sum_findUnspentOrdered]
      exact takeSum_le_sum k _ hnn
    rw [createTransfer_of_ok env _ db _ hsel, hcommit]
    refine ⟨rfl, ?_⟩
    simp [htot, F64.numGt_num, length_updateSpent]

/-- Witness of the amended C3: scenario 1 with target 4 (`T = 5`): one row is added, the change
record of amount 1. -/
theorem createTransfer_spend_and_change_witness :
    createTransferSelect rateOne (some 4) scenario1 = .ok ⟨.num 4, 5, ["A"]⟩ ∧
    (createTransfer rateOne (some 4) scenario1).2.length = scenario1.length + 1 ∧
    (createTransfer rateOne (some 4) scenario1).2[scenario1.length]? =
      some ⟨"c0", 5 - 4, false, 10⟩ :=
  ⟨createTransferSelect_scenario1,
   ((createTransfer_spend_and_change rateOne 4 (.num 1) scenario1 getBtcToEurRate_rateOne
      (by simp [scenario1]) (by simp [scenario1, rateOne]) rfl rfl).1
      ⟨.num 4, 5, ["A"]⟩ createTransferSelect_scenario1).2.2.2.1 4 rfl (by norm_num)⟩

/-- When the target is a number that passes the threshold check, the read of the unspent coins
works and no amount is negative, `createTransfer` answers "Insufficient balance" exactly when the
unspent balance is below the target; and whenever it gives that answer the database is
unchanged. -/
theorem createTransfer_insufficient_iff_of_read (env : Env) (amountEur x : ℚ) (rate : F64)
    (db : Store) (hrate : getBtcToEurRate env = .ok rate)
    (hx : F64.numDiv amountEur rate = .num x) (hmin : minAmount ≤ x)
    (hfind : env.findFails = false) (hnonneg : ∀ t ∈ db, 0 ≤ t.Amount) :
    ((createTransfer env (some amountEur) db).1 = .error 400 "Insufficient balance" ↔
      unspentBalance db < x) ∧
    ((createTransfer env (some amountEur) db).1 = .error 400 "Insufficient balance" →
      (createTransfer env (some amountEur) db).2 = db) := by
  have hnn : ∀ t ∈ findUnspentOrdered false db, 0 ≤ t.Amount :=
    fun t ht => hnonneg t (mem_findUnspentOrdered false db t ht).1
  have hsel := createTransferSelect_eq env amountEur x rate db hrate hx hmin
  rw [hfind] at hsel
  by_cases hlt : (selectLoop (.num x) (findUnspentOrdered false db) 0 []).1 < x
  · rw [if_pos hlt] at hsel
    rw [createTransfer_of_error env _ db _ hsel]
    refine ⟨⟨fun _ => ?_, fun _ => rfl⟩, fun _ => rfl⟩
    rw [← sum_findUnspentOrdered]
    exact (selectLoop_insufficient_iff _ _ hnn).mp hlt
  · rw [if_neg hlt] at hsel
    rw [createTransfer_of_ok env _ db _ hsel, createTransferCommit_fst]
    refine ⟨⟨fun h => ?_, fun h => ?_⟩, fun h => ?_⟩
    · simp at h
    · rw [← sum_findUnspentOrdered] at h
      exact absurd ((selectLoop_insufficient_iff _ _ hnn).mpr h) hlt
    · simp at h

/-- C4, the code at the failing input: scenario 1 holds 8 unspent, the target is 4 and the `Find`
query of line 148 fails.  The handler does not look at the error, runs the loop over an empty
slice and answers "Insufficient balance", although the unspent balance is not below the
target.  The database is unchanged. -/
theorem createTransfer_insufficient_on_failed_read :
    findDown.findFails = true ∧
    createTransfer findDown (some 4) scenario1 =
      (.error 400 "Insufficient balance", scenario1) ∧
    ¬ unspentBalance scenario1 < 4 := by
  refine ⟨rfl, ?_, ?_⟩
  · simp only [createTransfer, createTransferSelect, getBtcToEurRate_findDown]
    norm_num [F64.numDiv, F64.ltNum, F64.numLt, minAmount, findUnspentOrdered, selectLoop,
      findDown]
  · norm_num [unspentBalance, scenario1]

/-- C5, counterexample (scenario 3): two transfers of 5 read the store holding the single unspent
coin A before either writes.  Both choose A and both answer "Transfer successful"; the second
write part runs on a store in which A is already spent, does not fail, and is applied. -/
theorem createTransferInterleaved_double_spend :
    createTransferSelect rateOne (some 5) scenario2 = .ok ⟨.num 5, 5, ["A"]⟩ ∧
    createTransferInterleaved rateOne rateOne (some 5) (some 5) scenario2 =
      (.transferSuccessful, .transferSuccessful, scenario2Spent) ∧
    createTransferCommit rateOne ⟨.num 5, 5, ["A"]⟩ scenario2Spent =
      (.transferSuccessful, scenario2Spent) := by
  refine ⟨createTransferSelect_scenario2, ?_, ?_⟩
  · simp only [createTransferInterleaved, createTransferSelect_scenario2, createTransferCommit]
    norm_num [F64.numGt, scenario2, scenario2Spent, updateSpent, rateOne]
  · simp only [createTransferCommit]
    norm_num [F64.numGt, scenario2Spent, updateSpent, rateOne]

/-- C5, amended: the write part of `createTransfer` is unconditional: it answers "Transfer
successful" on every store, and a working update marks every row whose id was chosen, whether or
not that row is still unspent (a row is spent afterwards exactly when it was spent before or its
id was chosen).  When two calls both pass their read part on the same store before either
writes, both answer "Transfer successful" and both write parts are applied one after the other.
A call whose target is a number has chosen at least one coin, and two calls that each chose a
coin have both chosen the oldest unspent coin: their chosen lists have the same head, and the
head of a chosen list is the id of an unspent row that is at least as old as every unspent row.
A spent flag is never reset, so a row still goes from unspent to spent at most once. -/
theorem createTransferInterleaved_both_commit (env1 env2 : Env) (request1 request2 : Option ℚ)
    (db : Store) (p1 p2 : Pending)
    (h1 : createTransferSelect env1 request1 db = .ok p1)
    (h2 : createTransferSelect env2 request2 db = .ok p2) :
    createTransferInterleaved env1 env2 request1 request2 db =
      (.transferSuccessful, .transferSuccessful,
        (createTransferCommit env2 p2 (createTransferCommit env1 p1 db).2).2) ∧
    (∀ x : ℚ, p1.amountBtc = .num x → p1.spentTransactions ≠ []) ∧
    (∀ x : ℚ, p2.amountBtc = .num x → p2.spentTransactions ≠ []) ∧
    (p1.spentTransactions ≠ [] → p2.spentTransactions ≠ [] →
      p1.spentTransactions.head? = p2.spentTransactions.head?) ∧
    (∀ id : String,
      p1.spentTransactions.head? = some id ∨ p2.spentTransactions.head? = some id →
      ∃ t ∈ db, t.ID = id ∧ t.Spent = false ∧
        ∀ u ∈ db, u.Spent = false → t.CreatedAt ≤ u.CreatedAt) ∧
    (∀ (q : Pending) (db2 : Store), (createTransferCommit env2 q db2).1 = .transferSuccessful) ∧
    (env2.updateFails = false →
      ∀ (q : Pending) (db2 : Store) (i : Nat) (t : Transaction), db2[i]? = some t →
        ∃ t', (createTransferCommit env2 q db2).2[i]? = some t' ∧ t'.ID = t.ID ∧
          (t'.Spent = true ↔ t.Spent = true ∨ t.ID ∈ q.spentTransactions)) ∧
    (∀ (i : Nat) (t : Transaction), db[i]? = some t →
      ∃ t', (createTransferCommit env2 p2 (createTransferCommit env1 p1 db).2).2[i]? = some t' ∧
        t'.ID = t.ID ∧ (t.Spent = true → t'.Spent = true)) := by
  have hnum : ∀ (env : Env) (request : Option ℚ) (p : Pending) (x : ℚ),
      createTransferSelect env request db = .ok p → p.amountBtc = .num x →
      p.spentTransactions ≠ [] := by
    intro env request p x h hx hnil
    obtain ⟨_, _, k, _, hk1, hids, _⟩ := createTransferSelect_ok_num env request db p x h hx
    have hlen : (((findUnspentOrdered false db).take k).map Transaction.ID).length = 0 := by
      rw [← hids, hnil]; rfl
    rw [List.length_map, List.length_take] at hlen
    omega
  have hhead : ∀ (env : Env) (request : Option ℚ) (p : Pending),
      createTransferSelect env request db = .ok p → p.spentTransactions ≠ [] →
      p.spentTransactions.head? = (findUnspentOrdered false db).head?.map Transaction.ID := by
    intro env request p h hne
    obtain ⟨_, _, _, _, _, _, _, k, _, hids, _, _, _⟩ := createTransferSelect_ok env request db p h
    have hfind : env.findFails = false := by
      cases hf : env.findFails with
      | false => rfl
      | true =>
        rw [hf] at hids
        simp [findUnspentOrdered] at hids
        exact absurd hids hne
    rw [hfind] at hids
    have hk1 : 1 ≤ k := by
      by_contra hk
      have hk0 : k = 0 := by omega
      rw [hk0] at hids
      simp at hids
      exact hne hids
    rw [hids]
    exact head?_map_take _ k hk1
  refine ⟨?_, fun x hx => hnum env1 request1 p1 x h1 hx,
    fun x hx => hnum env2 request2 p2 x h2 hx, ?_, ?_, fun _ _ => rfl, ?_, ?_⟩
  · simp only [createTransferInterleaved, h1, h2, createTransferCommit_fst]
  · intro hne1 hne2
    rw [hhead env1 request1 p1 h1 hne1, hhead env2 request2 p2 h2 hne2]
  · have hold : ∀ (env : Env) (request : Option ℚ) (p : Pending) (id : String),
        createTransferSelect env request db = .ok p → p.spentTransactions.head? = some id →
        ∃ t ∈ db, t.ID = id ∧ t.Spent = false ∧
          ∀ u ∈ db, u.Spent = false → t.CreatedAt ≤ u.CreatedAt := by
      intro env request p id h hid
      have hne : p.spentTransactions ≠ [] := by
        intro hnil; rw [hnil] at hid; simp at hid
      rw [hhead env request p h hne] at hid
      cases ht : (findUnspentOrdered false db).head? with
      | none => rw [ht] at hid; simp at hid
      | some t =>
        rw [ht] at hid
        have htid : t.ID = id := by simpa using hid
        obtain ⟨hdb, hun, hmin⟩ := head?_findUnspentOrdered db t ht
        exact ⟨t, hdb, htid, hun, hmin⟩
    intro id hid
    rcases hid with hid | hid
    · exact hold env1 request1 p1 id h1 hid
    · exact hold env2 request2 p2 id h2 hid
  · intro hu q db2 i t hi
    have hrow : ∃ t', (updateSpent false q.spentTransactions db2)[i]? = some t' ∧
        t'.ID = t.ID ∧ (t'.Spent = true ↔ t.Spent = true ∨ t.ID ∈ q.spentTransactions) := by
      simp only [updateSpent, Bool.false_eq_true, if_false, List.getElem?_map, hi,
        Option.map_some']
      by_cases hm : t.ID ∈ q.spentTransactions
      · exact ⟨_, rfl, by simp [hm]⟩
      · exact ⟨_, rfl, by simp [hm]⟩
    obtain ⟨t', ht', hid, hspent⟩ := hrow
    refine ⟨t', ?_, hid, hspent⟩
    simp only [createTransferCommit, hu]
    split
    · exact getElem?_create _ _ _ i t' ht'
    · exact ht'
  · intro i t hi
    obtain ⟨u, hu, huid, _, _, huspent⟩ := getElem?_createTransferCommit env1 p1 db i t hi
    obtain ⟨v, hv, hvid, _, _, hvspent⟩ :=
      getElem?_createTransferCommit env2 p2 _ i u hu
    exact ⟨v, hv, hvid.trans huid, fun hs => hvspent (huspent hs)⟩

/-- Witness of the amended C5 on scenario 3. -/
theorem createTransferInterleaved_both_commit_witness :
    createTransferInterleaved rateOne rateOne (some 5) (some 5) scenario2 =
      (.transferSuccessful, .transferSuccessful,
        (createTransferCommit rateOne ⟨.num 5, 5, ["A"]⟩
          (createTransferCommit rateOne ⟨.num 5, 5, ["A"]⟩ scenario2).2).2) :=
  (createTransferInterleaved_both_commit rateOne rateOne (some 5) (some 5) scenario2
    ⟨.num 5, 5, ["A"]⟩ ⟨.num 5, 5, ["A"]⟩ createTransferSelect_scenario2
    createTransferSelect_scenario2).1

/-- C6, counterexample: scenario 1, target 4, the `Update` statement fails.  The transfer answers
"Transfer successful"; coin A stays unspent and the change record of 1 is inserted all the same,
so the store differs from its state before the transfer. -/
theorem createTransfer_update_failure_not_rolled_back :
    updateDown.updateFails = true ∧
    createTransfer updateDown (some 4) scenario1 =
      (.transferSuccessful, scenario1 ++ [⟨"c0", 1, false, 10⟩]) ∧
    (createTransfer updateDown (some 4) scenario1).2 ≠ scenario1 := by
  have h : createTransfer updateDown (some 4) scenario1 =
      (.transferSuccessful, scenario1 ++ [⟨"c0", 1, false, 10⟩]) := by
    simp only [createTransfer, createTransferSelect_updateDown, createTransferCommit]
    norm_num [F64.numGt, F64.numSub, scenario1, updateSpent, create, updateDown, rateOne]
    simp
  refine ⟨rfl, h, ?_⟩
  rw [h]
  simp [scenario1]

/-- C6, amended: when a write fails after the checks have passed, `createTransfer` still answers
"Transfer successful" and rolls nothing back; each statement takes effect on its own.  If the
update fails, every old row stays as it was, so the chosen coins stay unspent; if in addition the
insert works, the new id is not yet in the table and the target is a number below the total, the
change record is appended all the same.  If the update works and the insert fails, no row is
added and a row is spent afterwards exactly when it was spent before or its id was chosen.  If
both fail, the store is as it was before the transfer. -/
theorem createTransfer_write_failure (env : Env) (request : Option ℚ) (db : Store) (p : Pending)
    (h : createTransferSelect env request db = .ok p) :
    (createTransfer env request db).1 = .transferSuccessful ∧
    (env.updateFails = true →
      ∀ (i : Nat) (t : Transaction), db[i]? = some t →
        (createTransfer env request db).2[i]? = some t) ∧
    (env.updateFails = true → env.createFails = false → env.newId ∉ db.map Transaction.ID →
      ∀ x : ℚ, p.amountBtc = .num x → x < p.totalBtc →
        (createTransfer env request db).2 =
          db ++ [⟨env.newId, p.totalBtc - x, false, env.now⟩]) ∧
    (env.updateFails = false → env.createFails = true →
      (createTransfer env request db).2.length = db.length ∧
      ∀ (i : Nat) (t : Transaction), db[i]? = some t →
        ∃ t', (createTransfer env request db).2[i]? = some t' ∧ t'.ID = t.ID ∧
          t'.Amount = t.Amount ∧ t'.CreatedAt = t.CreatedAt ∧
          (t'.Spent = true ↔ t.Spent = true ∨ t.ID ∈ p.spentTransactions)) ∧
    (env.updateFails = true → env.createFails = true →
      (createTransfer env request db).2 = db) := by
  rw [createTransfer_of_ok env request db p h]
  refine ⟨rfl, ?_, ?_, ?_, ?_⟩
  · intro hu i t hi
    simp only [createTransferCommit, hu, updateSpent, if_true]
    split
    · exact getElem?_create _ _ _ i t hi
    · exact hi
  · intro hu hc hfresh x hx hlt
    have hgt : F64.numGt p.totalBtc p.amountBtc = true := by
      rw [hx, F64.numGt_num]; exact decide_eq_true hlt
    simp only [createTransferCommit, hu, hc, updateSpent, create, hgt, if_true]
    simp [hfresh, hx, F64.numSub_num]
  · intro hu hc
    have hstore : (createTransferCommit env p db).2 =
        updateSpent false p.spentTransactions db := by
      simp [createTransferCommit, hu, hc, create]
    rw [hstore]
    refine ⟨length_updateSpent _ _ _, fun i t hi => ?_⟩
    simp only [updateSpent, Bool.false_eq_true, if_false, List.getElem?_map, hi,
      Option.map_some']
    by_cases hm : t.ID ∈ p.spentTransactions
    · exact ⟨_, rfl, by simp [hm]⟩
    · exact ⟨_, rfl, by simp [hm]⟩
  · intro hu hc
    simp [createTransferCommit, hu, hc, updateSpent, create]

/-- Witness of the amended C6: scenario 1, target 4, failing update. -/
theorem createTransfer_write_failure_witness :
    (createTransfer updateDown (some 4) scenario1).1 = .transferSuccessful ∧
    (createTransfer updateDown (some 4) scenario1).2 =
      scenario1 ++ [⟨"c0", 5 - 4, false, 10⟩] :=
  ⟨(createTransfer_write_failure updateDown (some 4) scenario1 ⟨.num 4, 5, ["A"]⟩
      createTransferSelect_updateDown).1,
   (createTransfer_write_failure updateDown (some 4) scenario1 ⟨.num 4, 5, ["A"]⟩
      createTransferSelect_updateDown).2.2.1 rfl rfl (by simp [scenario1, updateDown, rateOne])
      4 rfl (by norm_num)⟩

/-- C7: for a known non-zero rate, if the target `amountEur / rate` is below the threshold
0.00001 then `createTransfer` answers "Transfer amount too small" and leaves the database as it
is, whatever the database holds and whether or not a read of it would work (the answer does not
depend on the store); and if the target is at or above the threshold the answer is never
"Transfer amount too small". -/
theorem createTransfer_amount_too_small (env : Env) (amountEur rate : ℚ)
    (hrate : getBtcToEurRate env = .ok (.num rate)) (hrate0 : rate ≠ 0) :
    (amountEur / rate < minAmount →
      ∀ (db : Store) (findFails : Bool),
        createTransfer { env with findFails := findFails } (some amountEur) db =
          (.error 400 "Transfer amount too small", db)) ∧
    (minAmount ≤ amountEur / rate →
      ∀ db : Store,
        (createTransfer env (some amountEur) db).1 ≠ .error 400 "Transfer amount too small") := by
  have hx := F64.numDiv_num amountEur rate hrate0
  constructor
  · intro hsmall db findFails
    simp [createTransfer, createTransferSelect, getBtcToEurRate_findFails, hrate, hx,
      F64.ltNum_num, hsmall]
  · intro hmin db
    have hsel := createTransferSelect_eq env amountEur _ _ db hrate hx hmin
    split at hsel
    · rw [createTransfer_of_error env _ db _ hsel]
      simp
    · rw [createTransfer_of_ok env _ db _ hsel, createTransferCommit_fst]
      simp

/-- Witness of C7 (scenario 4): target 0.000005 at rate 1 is rejected. -/
theorem createTransfer_amount_too_small_witness :
    (1 / 200000 : ℚ) / 1 < minAmount ∧
    createTransfer { rateOne with findFails := true } (some (1 / 200000)) scenario1 =
      (.error 400 "Transfer amount too small", scenario1) :=
  ⟨by norm_num [minAmount],
   (createTransfer_amount_too_small rateOne (1 / 200000) 1 getBtcToEurRate_rateOne
    (by norm_num)).1 (by norm_num [minAmount]) scenario1 true⟩

/-- C9, counterexample: the store read works, the rate provider is down, and `showBalance`
fails. -/
theorem showBalance_fails_without_read_failure :
    rateDown.findFails = false ∧
    showBalance rateDown scenario1 =
      (.error 500 "Failed to fetch BTC to EUR rate", scenario1) := by
  refine ⟨rfl, ?_⟩
  simp [showBalance, getBtcToEurRate_rateDown]

/-- C9, amended: `showBalance` leaves the database unchanged; it fails (status 500) whenever
`getBtcToEurRate` returns an error; and when the rate is available as a number and the store
read works, it returns as `balance_btc` the sum of the amounts of exactly the rows whose spent
flag is false, and as `balance_eur` that sum times the rate. -/
theorem showBalance_spec (env : Env) (db : Store) :
    (showBalance env db).2 = db ∧
    (∀ err : String, getBtcToEurRate env = .error err →
      (showBalance env db).1 = .error 500 "Failed to fetch BTC to EUR rate") ∧
    (∀ rate : ℚ, getBtcToEurRate env = .ok (.num rate) → env.findFails = false →
      (showBalance env db).1 =
        .balance (unspentBalance db) (.num (unspentBalance db * rate))) := by
  refine ⟨?_, ?_, ?_⟩
  · unfold showBalance
    cases getBtcToEurRate env <;> rfl
  · intro err herr
    simp [showBalance, herr]
  · intro rate hrate hfind
    simp [showBalance, hrate, hfind, findUnspent, foldl_add_amount, unspentBalance, F64.numMul]

/-- Witness of the amended C9: scenario 1 at rate 1. -/
theorem showBalance_spec_witness :
    (showBalance rateOne scenario1).1 =
      .balance (unspentBalance scenario1) (.num (unspentBalance scenario1 * 1)) :=
  (showBalance_spec rateOne scenario1).2.2 1 getBtcToEurRate_rateOne rfl

/-- C10: after any `createTransfer` call every row that was in the table is still there, at the
same position, with the same id, amount and creation time, and a row that was spent is still
spent (a flag only goes from false to true).  The coins chosen by a transfer that passes the
checks are rows that were unspent before the call, each taken at most once: the chosen ids and
the accumulated total are the ids and the amounts of a sub-multiset of the unspent rows, so a
row already spent is never selected and never counted. -/
theorem createTransfer_rows_kept (env : Env) (request : Option ℚ) (db : Store) :
    (∀ (i : Nat) (t : Transaction), db[i]? = some t →
      ∃ t', (createTransfer env request db).2[i]? = some t' ∧ t'.ID = t.ID ∧
        t'.Amount = t.Amount ∧ t'.CreatedAt = t.CreatedAt ∧
        (t.Spent = true → t'.Spent = true)) ∧
    (∀ p : Pending, createTransferSelect env request db = .ok p →
      ∃ chosen : List Transaction,
        chosen.Subperm (db.filter (fun t => !t.Spent)) ∧
        (∀ t ∈ chosen, t ∈ db ∧ t.Spent = false) ∧
        p.spentTransactions = chosen.map Transaction.ID ∧
        p.totalBtc = (chosen.map Transaction.Amount).sum) := by
  constructor
  · intro i t hi
    cases hsel : createTransferSelect env request db with
    | error resp =>
      rw [createTransfer_of_error env request db resp hsel]
      exact ⟨t, hi, rfl, rfl, rfl, id⟩
    | ok p =>
      rw [createTransfer_of_ok env request db p hsel]
      exact getElem?_createTransferCommit env p db i t hi
  · intro p hsel
    obtain ⟨_, _, _, _, _, _, _, k, _, hids, htot, _, _⟩ :=
      createTransferSelect_ok env _ db p hsel
    refine ⟨(findUnspentOrdered env.findFails db).take k, ?_, ?_, hids, htot⟩
    · exact (List.take_sublist k _).subperm.trans (findUnspentOrdered_subperm env.findFails db)
    · intro t ht
      exact mem_findUnspentOrdered env.findFails db t (List.mem_of_mem_take ht)

/-- Witness of C10: coin A of scenario 1 after a transfer of 4. -/
theorem createTransfer_rows_kept_witness :
    ∃ t', (createTransfer rateOne (some 4) scenario1).2[0]? = some t' ∧ t'.ID = "A" ∧
      t'.Amount = 5 ∧ t'.CreatedAt = 1 ∧ (false = true → t'.Spent = true) :=
  (createTransfer_rows_kept rateOne (some 4) scenario1).1 0 ⟨"A", 5, false, 1⟩
    (by simp [scenario1])

end BitcoinWallet
